import Mathlib

/-
  Verification of the PixelView view-transform engine (src/src/app.cpp and its
  class header).  The C++ code computes with IEEE doubles; we embed it over ℚ
  (and over ℝ for the logarithmic zoom stepper, which is the only transcendental
  part).  Decimal constants such as 0.9999, 0.001, 0.125 are taken as the exact
  rationals they denote.  Division is Lean's total division on ℚ; every theorem
  that depends on a quotient carries positivity hypotheses matching the
  engine's documented assumptions (valid document, positive viewport, zoom > 0),
  under which no division by zero occurs in the source either.
-/

set_option maxRecDepth 4000

namespace PixelView

/-- View mode enumeration, from the ViewMode enum in the class header. -/
inductive ViewMode where
  | free
  | fit
  | fill
  | panel
deriving DecidableEq, Repr

/-- Area: the 4-real affine transform {m0, m1, m2, m3} (fields m[0]..m[3]). -/
structure Area where
  m0 : ℚ
  m1 : ℚ
  m2 : ℚ
  m3 : ℚ
deriving DecidableEq, Repr

/-- Default Area value {2, -2, -1, 1} used to initialize m_currentArea / m_targetArea. -/
def defaultArea : Area := ⟨2, -2, -1, 1⟩

/-- The view state: the fields of class PixelViewApp that the view transform
engine reads and writes (the m_ prefix of the source is dropped). -/
structure ViewState where
  imgWidth : ℤ
  imgHeight : ℤ
  aspect : ℚ
  maxCrop : ℚ
  integer : Bool
  viewMode : ViewMode
  prevViewMode : ViewMode
  animate : Bool
  zoom : ℚ
  x0 : ℚ
  y0 : ℚ
  screenWidth : ℚ
  screenHeight : ℚ
  viewWidth : ℚ
  viewHeight : ℚ
  minX0 : ℚ
  minY0 : ℚ
  minZoom : ℚ
  scrollX : ℚ
  scrollY : ℚ
  scrollSpeed : ℚ
  currentArea : Area
  targetArea : Area
  panelAreas : List Area
deriving DecidableEq, Repr

/-- PixelViewApp::imgValid: (m_imgWidth > 0) && (m_imgHeight > 0). -/
def imgValid (s : ViewState) : Bool :=
  decide (0 < s.imgWidth) && decide (0 < s.imgHeight)

/-- PixelViewApp::isSquarePixels: (m_aspect >= 0.9999) && (m_aspect <= 1.0001). -/
def isSquarePixels (aspect : ℚ) : Bool :=
  decide ((9999 : ℚ)/10000 ≤ aspect) && decide (aspect ≤ (10001 : ℚ)/10000)

/-- PixelViewApp::canUsePanelMode: !m_panelAreas.empty(). -/
def canUsePanelMode (s : ViewState) : Bool :=
  !s.panelAreas.isEmpty

/-- PixelViewApp::wantIntegerZoom: m_integer && isSquarePixels() && (m_viewMode != vmPanel). -/
def wantIntegerZoom (integer : Bool) (aspect : ℚ) (mode : ViewMode) : Bool :=
  integer && isSquarePixels aspect && decide (mode ≠ ViewMode.panel)

/-- PixelViewApp::isScrolling: (m_scrollX != 0.0) || (m_scrollY != 0.0). -/
def isScrolling (s : ViewState) : Bool :=
  decide (s.scrollX ≠ 0) || decide (s.scrollY ≠ 0)

/-- Autofit test used in updateView: (m_viewMode == vmFit) || (m_viewMode == vmFill). -/
def autofitMode (mode : ViewMode) : Bool :=
  decide (mode = ViewMode.fit) || decide (mode = ViewMode.fill)

/-- Raw image width with aspect correction: m_imgWidth * max(m_aspect, 1.0). -/
def rawWidthOf (s : ViewState) : ℚ :=
  (s.imgWidth : ℚ) * max s.aspect 1

/-- Raw image height with aspect correction: m_imgHeight / min(m_aspect, 1.0). -/
def rawHeightOf (s : ViewState) : ℚ :=
  (s.imgHeight : ℚ) / min s.aspect 1

/-- PixelViewApp::setArea: builds the transform from origin and view size. -/
def setArea (screenW screenH x0 y0 vw vh : ℚ) : Area :=
  { m0 := 2 * (vw / screenW)
    m1 := -2 * (vh / screenH)
    m2 := 2 * (x0 / screenW) - 1
    m3 := -2 * (y0 / screenH) + 1 }

/-- The forced mode switch at the top of updateView: if panel mode is active
but not allowed, fall back to free mode. -/
def effectiveViewMode (s : ViewState) : ViewMode :=
  if s.viewMode = ViewMode.panel ∧ ¬ canUsePanelMode s then ViewMode.free else s.viewMode

/-- The isInt flag computed in updateView (after the forced mode switch). -/
def effIsInt (s : ViewState) : Bool :=
  wantIntegerZoom s.integer s.aspect (effectiveViewMode s)

/-- The autofit flag computed in updateView (after the forced mode switch). -/
def effAutofit (s : ViewState) : Bool :=
  autofitMode (effectiveViewMode s)

/-- The auto-fit block of updateView: per-axis fit ratios (denominator inflated
by (1 - m_maxCrop) in integer mode), max for Fill, min for Fit; in any other
mode the zoom is left alone. -/
def autofitZoom (mode : ViewMode) (isInt : Bool)
    (screenW screenH rawW rawH maxCrop zoom : ℚ) : ℚ :=
  if autofitMode mode then
    let zoomX := screenW / (if isInt then rawW * (1 - maxCrop) else rawW)
    let zoomY := screenH / (if isInt then rawH * (1 - maxCrop) else rawH)
    if mode = ViewMode.fill then max zoomX zoomY else min zoomX zoomY
  else zoom

/-- The minimum-zoom block of updateView: min of the two fit ratios, capped at
1.0, and lowered to 1/ceil(1/minZoom) when integer zoom is requested. -/
def minZoomOf (isInt : Bool) (screenW screenH rawW rawH : ℚ) : ℚ :=
  if 1 ≤ min (screenW / rawW) (screenH / rawH) then 1
  else if isInt then 1 / ((⌈1 / min (screenW / rawW) (screenH / rawH)⌉ : ℤ) : ℚ)
  else min (screenW / rawW) (screenH / rawH)

/-- Rounding offset of the integer-zoom quantization: 0.999 shrinking / 0.0
magnifying in integer autofit mode, 0.5 otherwise. -/
def quantizeRounding (isInt autofit zoomDown : Bool) : ℚ :=
  if isInt ∧ autofit then (if zoomDown then 999/1000 else 0) else 1/2

/-- Core of the integer-zoom quantization on the zoom-or-1/zoom value (which is
at least 1): intZoom = floor(z1 + rounding), taken when integer mode is on or
z1 is within 0.001 of it. -/
def quantizeCore (isInt : Bool) (rounding z1 : ℚ) : ℚ :=
  if isInt ∨ |z1 - ((⌊z1 + rounding⌋ : ℤ) : ℚ)| < 1/1000 then ((⌊z1 + rounding⌋ : ℤ) : ℚ)
  else z1

/-- The integer-zoom quantization block of updateView: work in zoom-or-1/zoom
space (whichever is at least 1), apply the core quantization there, and map
back. -/
def quantizeZoom (isInt autofit : Bool) (z : ℚ) : ℚ :=
  if z < 1 then 1 / quantizeCore isInt (quantizeRounding isInt autofit true) (1 / z)
  else quantizeCore isInt (quantizeRounding isInt autofit false) z

/-- The per-axis constrain lambda of updateView: returns (new position,
minimum position). -/
def constrainPos (autofit : Bool) (pos viewSize screenSize : ℚ) : ℚ × ℚ :=
  let minPos := min 0 (screenSize - viewSize)
  let newPos :=
    if autofit ∨ 0 ≤ minPos then (screenSize - viewSize) / 2
    else min 0 (max minPos pos)
  (newPos, minPos)

/-- Zoom selected by updateView before quantization: the autofit result (or the
current zoom) clamped up to the minimum zoom. -/
def preClampZoom (s : ViewState) : ℚ :=
  autofitZoom (effectiveViewMode s) (effIsInt s)
    s.screenWidth s.screenHeight (rawWidthOf s) (rawHeightOf s) s.maxCrop s.zoom

/-- Minimum zoom as recomputed by updateView. -/
def newMinZoom (s : ViewState) : ℚ :=
  minZoomOf (effIsInt s) s.screenWidth s.screenHeight (rawWidthOf s) (rawHeightOf s)

/-- Final zoom computed by updateView. -/
def newZoom (s : ViewState) : ℚ :=
  quantizeZoom (effIsInt s) (effAutofit s) (max (preClampZoom s) (newMinZoom s))

/-- Final document width m_viewWidth = rawWidth * m_zoom. -/
def newViewWidth (s : ViewState) : ℚ := rawWidthOf s * newZoom s

/-- Final document height m_viewHeight = rawHeight * m_zoom. -/
def newViewHeight (s : ViewState) : ℚ := rawHeightOf s * newZoom s

/-- Relative pivot position: (pivot - origin) / viewSize if viewSize > 1, else 0.5. -/
def pivotRel (pivot origin viewSize : ℚ) : ℚ :=
  if 1 < viewSize then (pivot - origin) / viewSize else 1/2

/-- Origin before clamping: reconstructed from the pivot when usePivot is set. -/
def unclampedX (s : ViewState) (usePivot : Bool) (pivotX : ℚ) : ℚ :=
  if usePivot then pivotX - pivotRel pivotX s.x0 s.viewWidth * newViewWidth s else s.x0

/-- Origin before clamping, vertical axis. -/
def unclampedY (s : ViewState) (usePivot : Bool) (pivotY : ℚ) : ℚ :=
  if usePivot then pivotY - pivotRel pivotY s.y0 s.viewHeight * newViewHeight s else s.y0

/-- The body of PixelViewApp::updateView past the imgValid guard, assembled
from the blocks above in source order. -/
def updateViewCore (s : ViewState) (usePivot : Bool) (pivotX pivotY : ℚ) : ViewState :=
  let mode := effectiveViewMode s
  let cx := constrainPos (effAutofit s) (unclampedX s usePivot pivotX)
              (newViewWidth s) s.screenWidth
  let cy := constrainPos (effAutofit s) (unclampedY s usePivot pivotY)
              (newViewHeight s) s.screenHeight
  { s with
    viewMode := mode
    prevViewMode := mode
    animate := if mode ≠ ViewMode.panel ∧ s.prevViewMode = ViewMode.panel then false else s.animate
    zoom := newZoom s
    minZoom := newMinZoom s
    viewWidth := newViewWidth s
    viewHeight := newViewHeight s
    x0 := cx.1
    y0 := cy.1
    minX0 := cx.2
    minY0 := cy.2
    targetArea := setArea s.screenWidth s.screenHeight
      ((⌊cx.1⌋ : ℤ) : ℚ) ((⌊cy.1⌋ : ℤ) : ℚ) (newViewWidth s) (newViewHeight s) }

/-- PixelViewApp::updateView(usePivot, pivotX, pivotY): no-op without a valid
image, otherwise the core computation. -/
def updateView (s : ViewState) (usePivot : Bool) (pivotX pivotY : ℚ) : ViewState :=
  if imgValid s then updateViewCore s usePivot pivotX pivotY else s

/-- The loop condition of the panel-count probe in computePanelGeometry:
viewMajor = dispMajor * panelCount, viewMinor = viewMajor * rawMinor / rawMajor,
continue while viewMinor * panelCount < dispMinor. -/
def panelProbeCond (rawMajor rawMinor dispMajor dispMinor : ℚ) (k : ℕ) : Bool :=
  decide ((dispMajor * (k : ℚ) * rawMinor / rawMajor) * (k : ℚ) < dispMinor)

/-- The probing loop of computePanelGeometry, made total with explicit fuel
(the C loop increments panelCount while the condition holds). -/
def panelProbe (rawMajor rawMinor dispMajor dispMinor : ℚ) : ℕ → ℕ → ℕ
  | 0, k => k
  | fuel + 1, k =>
    if panelProbeCond rawMajor rawMinor dispMajor dispMinor k then
      panelProbe rawMajor rawMinor dispMajor dispMinor fuel (k + 1)
    else k

/-- Fuel for the probing loop; panelProbe_exits below shows it suffices for
positive sizes, so the fuel never alters the modelled result there. -/
def panelFuel (rawMajor rawMinor dispMajor dispMinor : ℚ) : ℕ :=
  (⌈(dispMinor * rawMajor) / (dispMajor * rawMinor)⌉).natAbs + 2

/-- PixelViewApp::computePanelGeometry: orientation detection, panel-count
probe, back off by one, and strip layout; returns the new m_panelAreas list
(empty when panel mode is unavailable). -/
def computePanelGeometry (s : ViewState) : List Area :=
  let rawMajor := (s.imgWidth : ℚ) * s.aspect
  let rawMinor := (s.imgHeight : ℚ)
  let wide := decide (rawMinor * s.screenWidth < rawMajor * s.screenHeight)
  let rM := if wide then rawMajor else rawMinor
  let rm := if wide then rawMinor else rawMajor
  let dM := if wide then s.screenWidth else s.screenHeight
  let dm := if wide then s.screenHeight else s.screenWidth
  let n := panelProbe rM rm dM dm (panelFuel rM rm dM dm) 1
  if n ≤ 2 then []
  else
    let count := n - 1
    let viewMajor := dM * (count : ℚ)
    let viewMinor := viewMajor * rm / rM
    let step := (dM - viewMajor) / ((count : ℚ) - 1)
    let gap := (dm - (count : ℚ) * viewMinor) / ((count : ℚ) + 1)
    (List.range count).map (fun (i : ℕ) =>
      let posMajor := (i : ℚ) * step
      let posMinor := gap + (i : ℚ) * (viewMinor + gap)
      if wide then setArea s.screenWidth s.screenHeight posMajor posMinor viewMajor viewMinor
      else setArea s.screenWidth s.screenHeight posMinor posMajor viewMinor viewMajor)

/-- The per-frame auto-scroll block of PixelViewApp::run: while scrolling,
origin -= scrollDir * scrollSpeed, clear an axis direction when its origin
left [minOrigin, 0], then updateView() with the default center pivot. -/
def scrollFrame (s : ViewState) : ViewState :=
  if isScrolling s then
    let x1 := s.x0 - s.scrollX * s.scrollSpeed
    let y1 := s.y0 - s.scrollY * s.scrollSpeed
    let sx := if 0 < x1 ∨ x1 < s.minX0 then 0 else s.scrollX
    let sy := if 0 < y1 ∨ y1 < s.minY0 then 0 else s.scrollY
    updateView { s with x0 := x1, y0 := y1, scrollX := sx, scrollY := sy }
      true (s.screenWidth / 2) (s.screenHeight / 2)
  else s

/-- The direction auto-detection loop of startScroll: starting from the current
scroll direction (sx, sy) and best distance 0, test the four directions in the
loop order dir = 0 (down), 1 (right), 2 (up), 3 (left); skip an axis whose
minimum origin is nonnegative; take a direction when its remaining distance
strictly exceeds the best so far. -/
def autoPickFrom (sx sy x0 y0 minX0 minY0 : ℚ) : ℚ × ℚ :=
  let a0 : ℚ × ℚ × ℚ := (0, sx, sy)
  let a1 := if 0 ≤ minY0 then a0
            else if a0.1 < y0 - minY0 then (y0 - minY0, 0, 1) else a0
  let a2 := if 0 ≤ minX0 then a1
            else if a1.1 < x0 - minX0 then (x0 - minX0, 1, 0) else a1
  let a3 := if 0 ≤ minY0 then a2
            else if a2.1 < -y0 then (-y0, 0, -1) else a2
  let a4 := if 0 ≤ minX0 then a3
            else if a3.1 < -x0 then (-x0, -1, 0) else a3
  (a4.2.1, a4.2.2)

/-- PixelViewApp::startScroll(speed, dx, dy) up to (and excluding) the final
viewCfg call: set the speed if given, clear scrolling in panel mode, take an
explicit direction if given, otherwise auto-detect the direction with the
longest remaining distance (testing order: down, right, up, left; an axis with
minOrigin >= 0 is skipped; a direction is taken only when its distance strictly
exceeds the best so far, starting from 0).  The trailing viewCfg("fx") of the
source only forces free mode / stops animation and re-runs updateView, none of
which touches the scroll direction fields modelled here. -/
def startScroll (s : ViewState) (speed dx dy : ℚ) : ViewState :=
  let s1 := if speed ≠ 0 then { s with scrollSpeed := speed } else s
  if s1.viewMode = ViewMode.panel then { s1 with scrollX := 0, scrollY := 0 }
  else if dx ≠ 0 ∨ dy ≠ 0 then { s1 with scrollX := dx, scrollY := dy }
  else if isScrolling s1 then s1
  else
    let p := autoPickFrom s1.scrollX s1.scrollY s1.x0 s1.y0 s1.minX0 s1.minY0
    { s1 with scrollX := p.1, scrollY := p.2 }

/-- The zoom step base: static constexpr double zoomStepSize = 1.4142135623730951
(the double closest to the square root of two). -/
noncomputable def zoomStepSize : ℝ := 1.4142135623730951

/-- The zoom computation of PixelViewApp::changeZoom(direction, ...) up to (and
excluding) the trailing viewCfg/updateView calls: early out on tiny directions,
map the zoom to a step index (linear integer scale in integer mode, log scale
with base zoomStepSize otherwise), snap-and-advance or floor-and-advance the
index, and map back. -/
noncomputable def changeZoomStep (isInt : Bool) (zoom direction : ℝ) : ℝ :=
  if |direction| < 1/100 then zoom
  else
    let zdir : ℝ := if direction < 0 then -1 else 1
    let zstep : ℝ :=
      if isInt then (if 1 ≤ zoom then zoom - 1 else 1 - 1 / zoom)
      else Real.log zoom / Real.log zoomStepSize
    let istep : ℤ := ⌊zstep + 1/2⌋
    let zstep2 : ℝ :=
      if |zstep - (istep : ℝ)| < 1/8 then (istep : ℝ) + zdir else ((⌊zstep⌋ : ℤ) : ℝ) + zdir
    if isInt then (if 0 ≤ zstep2 then zstep2 + 1 else 1 / (1 - zstep2))
    else zoomStepSize ^ zstep2

/-- Zoom stepping as the specification words it: a no-op below the 0.01 noise
threshold; otherwise map the zoom onto a step index (integer mode: zoom - 1 for
zoom >= 1, 1 - 1/zoom for zoom < 1; otherwise log zoom / log of the step base),
snap to the nearest step and move one further in the requested direction when
the fractional distance to the nearest step is below 0.125, otherwise floor the
index and add the direction, and apply the inverse mapping. -/
noncomputable def changeZoomSpec (isInt : Bool) (zoom direction : ℝ) : ℝ :=
  if |direction| < 1/100 then zoom
  else
    let zdir : ℝ := if 0 ≤ direction then 1 else -1
    let index : ℝ :=
      if isInt then (if 1 ≤ zoom then zoom - 1 else 1 - 1 / zoom)
      else Real.log zoom / Real.log zoomStepSize
    let nearest : ℤ := round index
    let index2 : ℝ :=
      if |index - (nearest : ℝ)| < 1/8 then (nearest : ℝ) + zdir else ((⌊index⌋ : ℤ) : ℝ) + zdir
    if isInt then (if 0 ≤ index2 then index2 + 1 else 1 / (1 - index2))
    else zoomStepSize ^ index2

/-- Closeness of a rational to the integers within the 1e-9 tolerance named by
the specification. -/
def isNearInt (q : ℚ) : Prop :=
  |q - ((round q : ℤ) : ℚ)| ≤ 1/1000000000

instance (q : ℚ) : Decidable (isNearInt q) := by
  unfold isNearInt; infer_instance

/-
  Concrete states used by the counterexamples and witnesses below.
-/

/-- Baseline state: a 16x16 image with square pixels in a 1024x768 viewport,
free mode, all fields at the defaults of the class header. -/
def baseState : ViewState :=
  { imgWidth := 16, imgHeight := 16, aspect := 1, maxCrop := 0, integer := false,
    viewMode := ViewMode.free, prevViewMode := ViewMode.fit, animate := false,
    zoom := 1, x0 := 0, y0 := 0, screenWidth := 1024, screenHeight := 768,
    viewWidth := 0, viewHeight := 0, minX0 := 0, minY0 := 0, minZoom := 1/16,
    scrollX := 0, scrollY := 0, scrollSpeed := 4,
    currentArea := defaultArea, targetArea := defaultArea, panelAreas := [] }

/-- Wide 500x100 image against a square 1000x1000 viewport: the panel-count
probe exits at 3, so the laid-out count is 2. -/
def panelTwoState : ViewState :=
  { baseState with imgWidth := 500, imgHeight := 100,
                   screenWidth := 1000, screenHeight := 1000 }

/-- A 16x16 image in a 1024x768 viewport, integer zoom on, Fill mode. -/
def fillIntState : ViewState :=
  { baseState with integer := true, viewMode := ViewMode.fill }

/-- Valid document, degenerate (zero-sized) viewport. -/
def zeroViewportState : ViewState :=
  { baseState with screenWidth := 0, screenHeight := 0 }

/-- Invalid document (zero-sized image). -/
def noImageState : ViewState :=
  { baseState with imgWidth := 0 }

/-- Panel mode with an available panel layout, integer zoom requested, square
pixels, and a non-integer zoom value of 3/2. -/
def panelIntState : ViewState :=
  { baseState with imgWidth := 500, imgHeight := 100,
                   screenWidth := 1000, screenHeight := 1000, integer := true,
                   zoom := 3/2, viewMode := ViewMode.panel,
                   prevViewMode := ViewMode.panel, panelAreas := [defaultArea] }

/-- A 2001x1 image in a 1001x1001 viewport with requested zoom 1/10: minZoom is
1001/2001 and 1/minZoom = 2001/1001 is within 0.001 of the integer 2, so the
quantization snap lands at 1/2, just below minZoom. -/
def snapBelowMinState : ViewState :=
  { baseState with imgWidth := 2001, imgHeight := 1,
                   screenWidth := 1001, screenHeight := 1001, zoom := 1/10 }

/-- A 10x10 image fully visible in a 100x100 viewport (centered at 45), with an
explicit horizontal scroll direction active. -/
def smallScrollState : ViewState :=
  { baseState with imgWidth := 10, imgHeight := 10,
                   screenWidth := 100, screenHeight := 100, x0 := 45, y0 := 45,
                   viewWidth := 10, viewHeight := 10, minZoom := 1, scrollX := 1 }

/-- A 100x100 image in a 50x50 viewport, scrolled to (-10,-20), scrolling right:
a settled state (zoom stable, minOrigin negative on both axes). -/
def bigScrollState : ViewState :=
  { baseState with imgWidth := 100, imgHeight := 100,
                   screenWidth := 50, screenHeight := 50, x0 := -10, y0 := -20,
                   viewWidth := 100, viewHeight := 100, minX0 := -50, minY0 := -50,
                   minZoom := 1/2, scrollX := 1 }

/-
  C1.  computePanelGeometry and the panel count.
-/

/-- C1 counterexample: for a 500x100 image with square pixels in a 1000x1000
viewport, computePanelGeometry lays out exactly 2 panels, refuting the claim
that the panel count is never 1 or 2 (the count-check happens before the
back-off decrement, so an exit count of 3 yields 2 panels). -/
theorem computePanelGeometry_two_panel_example :
    (computePanelGeometry panelTwoState).length = 2 := by with_unfolding_all decide

/-- C1 amended: for every image size, aspect ratio and viewport size (positive,
as the engine assumes), computePanelGeometry either leaves the panel list empty
or produces at least 2 panels; a count of exactly 1 is impossible. -/
theorem computePanelGeometry_count_never_one (s : ViewState)
    (hw : 0 < s.imgWidth) (hh : 0 < s.imgHeight) (ha : 0 < s.aspect)
    (hsw : 0 < s.screenWidth) (hsh : 0 < s.screenHeight) :
    (computePanelGeometry s).length = 0 ∨ 2 ≤ (computePanelGeometry s).length := by
  simp only [computePanelGeometry]
  split_ifs with h1 h2 h3
  · exact Or.inl rfl
  · right
    simp only [List.length_map, List.length_range]
    omega
  · exact Or.inl rfl
  · right
    simp only [List.length_map, List.length_range]
    omega

/-- C1 witness for the amended theorem at the concrete 500x100 / 1000x1000
state. -/
theorem computePanelGeometry_count_never_one_witness :
    (0 < panelTwoState.imgWidth ∧ 0 < panelTwoState.aspect) ∧
    ((computePanelGeometry panelTwoState).length = 0 ∨
      2 ≤ (computePanelGeometry panelTwoState).length) :=
  ⟨by with_unfolding_all decide,
   computePanelGeometry_count_never_one panelTwoState (by with_unfolding_all decide) (by with_unfolding_all decide)
     (by with_unfolding_all decide) (by with_unfolding_all decide) (by with_unfolding_all decide)⟩

/-
  C2.  The 16x16 / 1024x768 integer Fill scenario.
-/

/-- C2 counterexample: with a 16x16 image, a 1024x768 viewport, integerZoom on,
maxCropFraction = 0 and Fill mode, updateView sets zoom to 64, not to
min(1024/16, 768/16) = 48 as claimed: Fill picks the max of the two ratios. -/
theorem updateView_fill_16x16_not_48 :
    (updateView fillIntState false 0 0).zoom = 64 ∧
    ¬ (updateView fillIntState false 0 0).zoom = 48 := by with_unfolding_all decide

/-- C2 amended: in the same scenario Fill yields the largest integer not
exceeding max(1024/16, 768/16) = 64 (with maxCropFraction 0); it is Fit mode
that yields the claimed 48 = min of the two ratios. -/
theorem updateView_fill_16x16_zoom :
    (updateView fillIntState false 0 0).zoom = 64 ∧
    (updateView { fillIntState with viewMode := ViewMode.fit } false 0 0).zoom = 48 := by
  with_unfolding_all decide

/-
  C3.  The no-op guard of updateView.
-/

/-- C3 counterexample: with a valid 16x16 document but a zero-sized viewport,
updateView is not a no-op: it recomputes minX0 to min(0, 0 - 16) = -16,
changing it from 0.  Only the document is guarded; degenerate viewports are
the callers' responsibility. -/
theorem updateView_zero_viewport_mutates :
    imgValid zeroViewportState = true ∧
    zeroViewportState.screenWidth = 0 ∧
    zeroViewportState.minX0 = 0 ∧
    (updateView zeroViewportState true 0 0).minX0 = -16 := by with_unfolding_all decide

/-- C3 amended: updateView is a no-op exactly when the document is absent or
zero-sized (imgValid false); it performs no viewport guard of its own. -/
theorem updateView_noop_of_invalid_image (s : ViewState) (usePivot : Bool)
    (pivotX pivotY : ℚ) (h : imgValid s = false) :
    updateView s usePivot pivotX pivotY = s := by
  simp [updateView, h]

/-- C3 witness: the no-op at a concrete zero-width document. -/
theorem updateView_noop_of_invalid_image_witness :
    imgValid noImageState = false ∧
    updateView noImageState true 512 384 = noImageState :=
  ⟨by with_unfolding_all decide, updateView_noop_of_invalid_image noImageState true 512 384 (by with_unfolding_all decide)⟩

/-
  C4.  Integer zoom quantization (counterexample part; the amended theorem
  follows further below after the quantization lemmas).
-/

/-- C4 counterexample: in Panel mode with a non-empty panel list, integer zoom
is not honored even with integerZoom=true and square pixels: a zoom of 3/2
survives updateView unchanged, and neither 3/2 nor 2/3 is within 1e-9 of an
integer. -/
theorem updateView_panel_noninteger_zoom :
    panelIntState.integer = true ∧
    isSquarePixels panelIntState.aspect = true ∧
    (updateView panelIntState false 0 0).zoom = 3/2 ∧
    ¬ isNearInt (updateView panelIntState false 0 0).zoom ∧
    ¬ isNearInt (1 / (updateView panelIntState false 0 0).zoom) := by with_unfolding_all decide

/-
  C5.  zoom >= minZoom (counterexample part; amended theorem below).
-/

/-- C5 counterexample: on a valid document and viewport, the 0.001 integer-snap
applied after the minimum-zoom clamp can leave zoom strictly below minZoom:
here zoom ends at 1/2 while minZoom is 1001/2001 > 1/2. -/
theorem updateView_zoom_below_minZoom_example :
    imgValid snapBelowMinState = true ∧
    (updateView snapBelowMinState false 0 0).zoom = 1/2 ∧
    (updateView snapBelowMinState false 0 0).minZoom = 1001/2001 ∧
    ¬ (updateView snapBelowMinState false 0 0).minZoom ≤
        (updateView snapBelowMinState false 0 0).zoom := by with_unfolding_all decide

/-
  C7.  Auto-scroll frame step (counterexample part; amended theorem below).
-/

/-- C7 counterexample: a frame of auto-scrolling on an axis whose content fits
the viewport ends with the origin re-centered at 45, outside [minOrigin, 0] =
[0, 0] and not at an edge of that range (the scroll direction is cleared, but
the constrain step centers rather than clamps when minOrigin >= 0). -/
theorem scrollFrame_centered_outside_range :
    isScrolling smallScrollState = true ∧
    (scrollFrame smallScrollState).minX0 = 0 ∧
    (scrollFrame smallScrollState).x0 = 45 ∧
    (scrollFrame smallScrollState).scrollX = 0 ∧
    ¬ (scrollFrame smallScrollState).x0 ≤ 0 := by with_unfolding_all decide

/-
  Quantization and minimum-zoom lemmas.
-/

lemma quantizeRounding_nonneg (isInt autofit zoomDown : Bool) :
    0 ≤ quantizeRounding isInt autofit zoomDown := by
  unfold quantizeRounding; split_ifs <;> norm_num

lemma quantizeRounding_le (isInt autofit zoomDown : Bool) :
    quantizeRounding isInt autofit zoomDown ≤ 999/1000 := by
  unfold quantizeRounding; split_ifs <;> norm_num

lemma quantizeCore_one_le (isInt : Bool) (r z1 : ℚ) (hr : 0 ≤ r) (h1 : 1 ≤ z1) :
    1 ≤ quantizeCore isInt r z1 := by
  unfold quantizeCore
  have hfl : (1 : ℤ) ≤ ⌊z1 + r⌋ := Int.le_floor.mpr (by push_cast; linarith)
  split_ifs with h
  · exact_mod_cast hfl
  · exact h1

lemma quantizeCore_le_of_le (isInt : Bool) (r z1 : ℚ) (C : ℤ)
    (hr : r ≤ 999/1000) (hC : z1 ≤ (C : ℚ)) :
    quantizeCore isInt r z1 ≤ (C : ℚ) := by
  unfold quantizeCore
  have h1 : ((⌊z1 + r⌋ : ℤ) : ℚ) ≤ z1 + r := Int.floor_le _
  have h2 : ((⌊z1 + r⌋ : ℤ) : ℚ) < (C : ℚ) + 1 := by linarith
  have hfl : ⌊z1 + r⌋ ≤ C := by
    have := Int.lt_add_one_iff.mp (show ⌊z1 + r⌋ < C + 1 by exact_mod_cast h2)
    exact this
  split_ifs with h
  · exact_mod_cast hfl
  · exact hC

lemma quantizeCore_int (r z1 : ℚ) :
    quantizeCore true r z1 = ((⌊z1 + r⌋ : ℤ) : ℚ) := by
  unfold quantizeCore; simp

/-- Lower bound for the quantized zoom: starting from any zoom at least mz
(with 0 < mz ≤ 1), quantization never drops below 1/ceil(1/mz). -/
lemma quantizeZoom_lower (isInt autofit : Bool) (z mz : ℚ)
    (hmz0 : 0 < mz) (hmz1 : mz ≤ 1) (hz : mz ≤ z) :
    1 / ((⌈1/mz⌉ : ℤ) : ℚ) ≤ quantizeZoom isInt autofit z := by
  have hinv1 : (1 : ℚ) ≤ 1 / mz := by rw [le_div_iff hmz0]; linarith
  have hC1 : (1 : ℤ) ≤ ⌈1/mz⌉ := by exact_mod_cast le_trans hinv1 (Int.le_ceil _)
  have hCQ : (0 : ℚ) < ((⌈1/mz⌉ : ℤ) : ℚ) := by exact_mod_cast lt_of_lt_of_le Int.zero_lt_one hC1
  have hmzC : 1 / ((⌈1/mz⌉ : ℤ) : ℚ) ≤ mz := by
    rw [div_le_iff hCQ]
    calc (1 : ℚ) = mz * (1/mz) := by field_simp
    _ ≤ mz * ((⌈1/mz⌉ : ℤ) : ℚ) := by
        exact mul_le_mul_of_nonneg_left (Int.le_ceil _) (le_of_lt hmz0)
  unfold quantizeZoom
  by_cases hzd : z < 1
  · rw [if_pos hzd]
    have hz0 : 0 < z := lt_of_lt_of_le hmz0 hz
    have hz1 : 1 ≤ 1/z := by rw [le_div_iff hz0]; linarith
    have hzC : 1/z ≤ ((⌈1/mz⌉ : ℤ) : ℚ) :=
      le_trans (one_div_le_one_div_of_le hmz0 hz) (Int.le_ceil _)
    have hq1 : 1 ≤ quantizeCore isInt (quantizeRounding isInt autofit true) (1/z) :=
      quantizeCore_one_le _ _ _ (quantizeRounding_nonneg _ _ _) hz1
    have hqC : quantizeCore isInt (quantizeRounding isInt autofit true) (1/z) ≤
        ((⌈1/mz⌉ : ℤ) : ℚ) :=
      quantizeCore_le_of_le _ _ _ _ (quantizeRounding_le _ _ _) hzC
    exact one_div_le_one_div_of_le (lt_of_lt_of_le one_pos hq1) hqC
  · rw [if_neg hzd]
    push_neg at hzd
    have h1C : 1 / ((⌈1/mz⌉ : ℤ) : ℚ) ≤ 1 := by
      rw [div_le_one hCQ]; exact_mod_cast hC1
    have := quantizeCore_one_le isInt (quantizeRounding isInt autofit false) z
      (quantizeRounding_nonneg _ _ _) hzd
    linarith

/-- With integer zoom on, the quantized zoom is an integer at least 1 or the
reciprocal of one. -/
lemma quantizeZoom_int_form (autofit : Bool) (z : ℚ) (hz : 0 < z) :
    ∃ n : ℤ, 1 ≤ n ∧
      (quantizeZoom true autofit z = (n : ℚ) ∨ quantizeZoom true autofit z = 1 / (n : ℚ)) := by
  unfold quantizeZoom
  by_cases hzd : z < 1
  · rw [if_pos hzd]
    refine ⟨⌊1/z + quantizeRounding true autofit true⌋, ?_, Or.inr ?_⟩
    · apply Int.le_floor.mpr
      push_cast
      have hz1 : 1 ≤ 1/z := by rw [le_div_iff hz]; linarith
      linarith [quantizeRounding_nonneg true autofit true]
    · rw [quantizeCore_int]
  · rw [if_neg hzd]
    push_neg at hzd
    refine ⟨⌊z + quantizeRounding true autofit false⌋, ?_, Or.inl ?_⟩
    · apply Int.le_floor.mpr
      push_cast
      linarith [quantizeRounding_nonneg true autofit false]
    · rw [quantizeCore_int]

lemma minZoomOf_pos (isInt : Bool) (sw sh rw rh : ℚ)
    (hsw : 0 < sw) (hsh : 0 < sh) (hrw : 0 < rw) (hrh : 0 < rh) :
    0 < minZoomOf isInt sw sh rw rh := by
  unfold minZoomOf
  have hm : 0 < min (sw / rw) (sh / rh) := lt_min (div_pos hsw hrw) (div_pos hsh hrh)
  split_ifs with h1 h2
  · norm_num
  · have hinv1 : (1 : ℚ) ≤ 1 / min (sw / rw) (sh / rh) := by
      rw [le_div_iff hm]; push_neg at h1; linarith
    have hC1 : (1 : ℤ) ≤ ⌈1 / min (sw / rw) (sh / rh)⌉ := by
      exact_mod_cast le_trans hinv1 (Int.le_ceil _)
    apply one_div_pos.mpr
    exact_mod_cast lt_of_lt_of_le Int.zero_lt_one hC1
  · exact hm

lemma minZoomOf_le_one (isInt : Bool) (sw sh rw rh : ℚ)
    (hsw : 0 < sw) (hsh : 0 < sh) (hrw : 0 < rw) (hrh : 0 < rh) :
    minZoomOf isInt sw sh rw rh ≤ 1 := by
  unfold minZoomOf
  have hm : 0 < min (sw / rw) (sh / rh) := lt_min (div_pos hsw hrw) (div_pos hsh hrh)
  split_ifs with h1 h2
  · exact le_refl 1
  · have hinv1 : (1 : ℚ) ≤ 1 / min (sw / rw) (sh / rh) := by
      rw [le_div_iff hm]; push_neg at h1; linarith
    have hC1 : (1 : ℤ) ≤ ⌈1 / min (sw / rw) (sh / rh)⌉ := by
      exact_mod_cast le_trans hinv1 (Int.le_ceil _)
    have hCQ : (0 : ℚ) < ((⌈1 / min (sw / rw) (sh / rh)⌉ : ℤ) : ℚ) := by
      exact_mod_cast lt_of_lt_of_le Int.zero_lt_one hC1
    rw [div_le_one hCQ]
    exact_mod_cast hC1
  · push_neg at h1; linarith

/-- With integer zoom on, the computed minimum zoom is exactly the reciprocal
of the ceiling of its own reciprocal (it is 1 or an integer reciprocal). -/
lemma minZoomOf_int_reciprocal (sw sh rw rh : ℚ)
    (hsw : 0 < sw) (hsh : 0 < sh) (hrw : 0 < rw) (hrh : 0 < rh) :
    1 / ((⌈1 / minZoomOf true sw sh rw rh⌉ : ℤ) : ℚ) = minZoomOf true sw sh rw rh := by
  unfold minZoomOf
  have hm : 0 < min (sw / rw) (sh / rh) := lt_min (div_pos hsw hrw) (div_pos hsh hrh)
  split_ifs with h1 h2
  · norm_num
  · rw [one_div_one_div, Int.ceil_intCast]
  · exact absurd rfl h2

/-
  Unfolding lemmas for updateView.
-/

lemma updateView_of_valid (s : ViewState) (up : Bool) (px py : ℚ)
    (h : imgValid s = true) :
    updateView s up px py = updateViewCore s up px py := by
  simp [updateView, h]

lemma updateViewCore_zoom (s : ViewState) (up : Bool) (px py : ℚ) :
    (updateViewCore s up px py).zoom = newZoom s := rfl

lemma updateViewCore_minZoom (s : ViewState) (up : Bool) (px py : ℚ) :
    (updateViewCore s up px py).minZoom = newMinZoom s := rfl

lemma updateViewCore_viewWidth (s : ViewState) (up : Bool) (px py : ℚ) :
    (updateViewCore s up px py).viewWidth = newViewWidth s := rfl

lemma updateViewCore_viewHeight (s : ViewState) (up : Bool) (px py : ℚ) :
    (updateViewCore s up px py).viewHeight = newViewHeight s := rfl

lemma updateViewCore_viewMode (s : ViewState) (up : Bool) (px py : ℚ) :
    (updateViewCore s up px py).viewMode = effectiveViewMode s := rfl

lemma updateViewCore_x0 (s : ViewState) (up : Bool) (px py : ℚ) :
    (updateViewCore s up px py).x0 =
      (constrainPos (effAutofit s) (unclampedX s up px) (newViewWidth s) s.screenWidth).1 := rfl

lemma updateViewCore_y0 (s : ViewState) (up : Bool) (px py : ℚ) :
    (updateViewCore s up px py).y0 =
      (constrainPos (effAutofit s) (unclampedY s up py) (newViewHeight s) s.screenHeight).1 := rfl

lemma updateViewCore_minX0 (s : ViewState) (up : Bool) (px py : ℚ) :
    (updateViewCore s up px py).minX0 =
      (constrainPos (effAutofit s) (unclampedX s up px) (newViewWidth s) s.screenWidth).2 := rfl

lemma updateViewCore_minY0 (s : ViewState) (up : Bool) (px py : ℚ) :
    (updateViewCore s up px py).minY0 =
      (constrainPos (effAutofit s) (unclampedY s up py) (newViewHeight s) s.screenHeight).2 := rfl

lemma updateViewCore_scrollX (s : ViewState) (up : Bool) (px py : ℚ) :
    (updateViewCore s up px py).scrollX = s.scrollX := rfl

lemma updateViewCore_scrollY (s : ViewState) (up : Bool) (px py : ℚ) :
    (updateViewCore s up px py).scrollY = s.scrollY := rfl

lemma updateViewCore_screenWidth (s : ViewState) (up : Bool) (px py : ℚ) :
    (updateViewCore s up px py).screenWidth = s.screenWidth := rfl

/-- Positivity of the aspect-corrected raw width for a valid image. -/
lemma rawWidthOf_pos (s : ViewState) (hImg : imgValid s = true) :
    0 < rawWidthOf s := by
  have hw : 0 < s.imgWidth := by
    unfold imgValid at hImg
    simp only [Bool.and_eq_true, decide_eq_true_eq] at hImg
    exact hImg.1
  exact mul_pos (by exact_mod_cast hw) (lt_of_lt_of_le one_pos (le_max_right _ _))

/-- Positivity of the aspect-corrected raw height for a valid image with a
positive pixel aspect ratio. -/
lemma rawHeightOf_pos (s : ViewState) (hImg : imgValid s = true) (ha : 0 < s.aspect) :
    0 < rawHeightOf s := by
  have hh : 0 < s.imgHeight := by
    unfold imgValid at hImg
    simp only [Bool.and_eq_true, decide_eq_true_eq] at hImg
    exact hImg.2
  exact div_pos (by exact_mod_cast hh) (lt_min ha one_pos)

/-
  C4.  Amended integer-zoom invariant.
-/

/-- C4 amended: after updateView with integerZoom on, square pixels, a valid
document, a positive viewport and an effective view mode other than Panel
(Panel mode disables integer zoom, see the counterexample), zoom or 1/zoom is
within 1e-9 of an integer (it is exactly an integer or integer reciprocal). -/
theorem updateView_integer_zoom_quantized (s : ViewState) (up : Bool) (px py : ℚ)
    (hImg : imgValid s = true) (hInt : s.integer = true)
    (hSq : isSquarePixels s.aspect = true)
    (hMode : effectiveViewMode s ≠ ViewMode.panel)
    (ha : 0 < s.aspect) (hsw : 0 < s.screenWidth) (hsh : 0 < s.screenHeight) :
    isNearInt (updateView s up px py).zoom ∨
      isNearInt (1 / (updateView s up px py).zoom) := by
  rw [updateView_of_valid s up px py hImg, updateViewCore_zoom]
  have hEff : effIsInt s = true := by
    unfold effIsInt wantIntegerZoom
    rw [hInt, hSq]
    simp [hMode]
  have hmz := minZoomOf_pos (effIsInt s) s.screenWidth s.screenHeight
    (rawWidthOf s) (rawHeightOf s) hsw hsh (rawWidthOf_pos s hImg) (rawHeightOf_pos s hImg ha)
  have hz : 0 < max (preClampZoom s) (newMinZoom s) :=
    lt_of_lt_of_le hmz (le_max_right _ _)
  unfold newZoom
  rw [hEff]
  obtain ⟨n, hn1, hcase⟩ := quantizeZoom_int_form (effAutofit s) _ hz
  rcases hcase with h | h
  · left
    rw [h]
    unfold isNearInt
    rw [round_intCast]
    simp
  · right
    rw [h, one_div_one_div]
    unfold isNearInt
    rw [round_intCast]
    simp

/-- C4 witness at the 16x16 / 1024x768 integer Fill state. -/
theorem updateView_integer_zoom_quantized_witness :
    (fillIntState.integer = true ∧ effectiveViewMode fillIntState ≠ ViewMode.panel) ∧
    (isNearInt (updateView fillIntState false 0 0).zoom ∨
      isNearInt (1 / (updateView fillIntState false 0 0).zoom)) :=
  ⟨by with_unfolding_all decide,
   updateView_integer_zoom_quantized fillIntState false 0 0 (by with_unfolding_all decide)
     (by with_unfolding_all decide) (by with_unfolding_all decide)
     (by with_unfolding_all decide) (by with_unfolding_all decide)
     (by with_unfolding_all decide) (by with_unfolding_all decide)⟩

/-
  C5.  Amended zoom lower bound.
-/

/-- C5 amended: after updateView on a valid document with a positive viewport,
zoom is at least 1/ceil(1/minZoom) where minZoom is the computed minimum zoom;
when integer zoom is in effect this bound equals minZoom itself, so
zoom >= minZoom holds.  Without integer zoom the 0.001 integer-snap can leave
zoom slightly below minZoom (see the counterexample), but never below
1/ceil(1/minZoom). -/
theorem updateView_zoom_lower_bound (s : ViewState) (up : Bool) (px py : ℚ)
    (hImg : imgValid s = true) (ha : 0 < s.aspect)
    (hsw : 0 < s.screenWidth) (hsh : 0 < s.screenHeight) :
    1 / ((⌈1 / (updateView s up px py).minZoom⌉ : ℤ) : ℚ) ≤ (updateView s up px py).zoom ∧
    (effIsInt s = true →
      (updateView s up px py).minZoom ≤ (updateView s up px py).zoom) := by
  rw [updateView_of_valid s up px py hImg, updateViewCore_zoom, updateViewCore_minZoom]
  have hrw := rawWidthOf_pos s hImg
  have hrh := rawHeightOf_pos s hImg ha
  have h0 : 0 < newMinZoom s :=
    minZoomOf_pos (effIsInt s) s.screenWidth s.screenHeight
      (rawWidthOf s) (rawHeightOf s) hsw hsh hrw hrh
  have h1 : newMinZoom s ≤ 1 :=
    minZoomOf_le_one (effIsInt s) s.screenWidth s.screenHeight
      (rawWidthOf s) (rawHeightOf s) hsw hsh hrw hrh
  have hle : newMinZoom s ≤ max (preClampZoom s) (newMinZoom s) := le_max_right _ _
  have hlow := quantizeZoom_lower (effIsInt s) (effAutofit s) _ _ h0 h1 hle
  refine ⟨hlow, fun hInt => ?_⟩
  have hrepr : newMinZoom s = minZoomOf true s.screenWidth s.screenHeight
      (rawWidthOf s) (rawHeightOf s) := by
    unfold newMinZoom; rw [hInt]
  have hid : 1 / ((⌈1 / newMinZoom s⌉ : ℤ) : ℚ) = newMinZoom s := by
    rw [hrepr]
    exact minZoomOf_int_reciprocal s.screenWidth s.screenHeight
      (rawWidthOf s) (rawHeightOf s) hsw hsh hrw hrh
  rw [← hid]
  exact hlow

/-- C5 witness at the baseline 16x16 / 1024x768 state. -/
theorem updateView_zoom_lower_bound_witness :
    imgValid baseState = true ∧
    (1 / ((⌈1 / (updateView baseState true 0 0).minZoom⌉ : ℤ) : ℚ) ≤
        (updateView baseState true 0 0).zoom ∧
      (effIsInt baseState = true →
        (updateView baseState true 0 0).minZoom ≤ (updateView baseState true 0 0).zoom)) :=
  ⟨by with_unfolding_all decide,
   updateView_zoom_lower_bound baseState true 0 0 (by with_unfolding_all decide)
     (by with_unfolding_all decide) (by with_unfolding_all decide)
     (by with_unfolding_all decide)⟩

/-
  C6.  Origin clamping invariant.
-/

/-- Behaviour of the constrain helper: the minimum position is
min(0, screenSize - viewSize), hence nonpositive; the position is centered when
autofit is set or the minimum position is nonnegative, and otherwise clamped
into [minPos, 0]. -/
lemma constrainPos_cases (af : Bool) (pos vs ss : ℚ) :
    (constrainPos af pos vs ss).2 = min 0 (ss - vs) ∧
    (constrainPos af pos vs ss).2 ≤ 0 ∧
    ((af = true ∨ 0 ≤ (constrainPos af pos vs ss).2) →
      (constrainPos af pos vs ss).1 = (ss - vs) / 2) ∧
    (¬(af = true ∨ 0 ≤ (constrainPos af pos vs ss).2) →
      (constrainPos af pos vs ss).2 ≤ (constrainPos af pos vs ss).1 ∧
        (constrainPos af pos vs ss).1 ≤ 0) := by
  have h2 : (constrainPos af pos vs ss).2 = min 0 (ss - vs) := rfl
  by_cases hc : af = true ∨ 0 ≤ min 0 (ss - vs)
  · have h1 : (constrainPos af pos vs ss).1 = (ss - vs) / 2 := by
      unfold constrainPos
      simp only
      rw [if_pos hc]
    refine ⟨h2, by rw [h2]; exact min_le_left _ _, fun _ => h1, fun hn => absurd ?_ hn⟩
    rcases hc with hc | hc
    · exact Or.inl hc
    · exact Or.inr (by rw [h2]; exact hc)
  · have h1 : (constrainPos af pos vs ss).1 = min 0 (max (min 0 (ss - vs)) pos) := by
      unfold constrainPos
      simp only
      rw [if_neg hc]
    refine ⟨h2, by rw [h2]; exact min_le_left _ _, fun hcond => absurd ?_ hc, fun _ => ?_⟩
    · rcases hcond with hcond | hcond
      · exact Or.inl hcond
      · exact Or.inr (by rw [h2] at hcond; exact hcond)
    · rw [h1, h2]
      exact ⟨le_min (min_le_left _ _) (le_max_left _ _), min_le_left _ _⟩

/-- C6: after updateView on a valid document, each axis independently has
minOrigin = min(0, screenSize - viewSize) (hence minOrigin <= 0); the origin is
centered at (screenSize - viewSize)/2 when the effective mode is autofit or
minOrigin >= 0, and otherwise lies within [minOrigin, 0]. -/
theorem updateView_origin_clamped (s : ViewState) (up : Bool) (px py : ℚ)
    (hImg : imgValid s = true) :
    ((updateView s up px py).minX0 =
        min 0 (s.screenWidth - (updateView s up px py).viewWidth) ∧
      (updateView s up px py).minX0 ≤ 0 ∧
      ((effAutofit s = true ∨ 0 ≤ (updateView s up px py).minX0) →
        (updateView s up px py).x0 =
          (s.screenWidth - (updateView s up px py).viewWidth) / 2) ∧
      (¬(effAutofit s = true ∨ 0 ≤ (updateView s up px py).minX0) →
        (updateView s up px py).minX0 ≤ (updateView s up px py).x0 ∧
          (updateView s up px py).x0 ≤ 0)) ∧
    ((updateView s up px py).minY0 =
        min 0 (s.screenHeight - (updateView s up px py).viewHeight) ∧
      (updateView s up px py).minY0 ≤ 0 ∧
      ((effAutofit s = true ∨ 0 ≤ (updateView s up px py).minY0) →
        (updateView s up px py).y0 =
          (s.screenHeight - (updateView s up px py).viewHeight) / 2) ∧
      (¬(effAutofit s = true ∨ 0 ≤ (updateView s up px py).minY0) →
        (updateView s up px py).minY0 ≤ (updateView s up px py).y0 ∧
          (updateView s up px py).y0 ≤ 0)) := by
  rw [updateView_of_valid s up px py hImg]
  rw [updateViewCore_minX0, updateViewCore_minY0, updateViewCore_x0, updateViewCore_y0,
    updateViewCore_viewWidth, updateViewCore_viewHeight]
  exact ⟨constrainPos_cases (effAutofit s) (unclampedX s up px) (newViewWidth s) s.screenWidth,
    constrainPos_cases (effAutofit s) (unclampedY s up py) (newViewHeight s) s.screenHeight⟩

/-- C6 witness at the baseline state. -/
theorem updateView_origin_clamped_witness :
    imgValid baseState = true ∧
    ((updateView baseState true 0 0).minX0 =
        min 0 (baseState.screenWidth - (updateView baseState true 0 0).viewWidth) ∧
      (updateView baseState true 0 0).minX0 ≤ 0) :=
  ⟨by with_unfolding_all decide,
   ⟨(updateView_origin_clamped baseState true 0 0 (by with_unfolding_all decide)).1.1,
    (updateView_origin_clamped baseState true 0 0 (by with_unfolding_all decide)).1.2.1⟩⟩

/-
  C7.  Amended auto-scroll clamping.
-/

/-- Behaviour of updateView in free mode on a settled state (zoom unchanged by
requantization, view size consistent, center pivot), per axis: an axis whose
content exceeds the viewport keeps its origin and is clamped into
[min(0, screen - view), 0]; an axis whose content fits the viewport is
centered; the minimum origin is recomputed to min(0, screen - view); the
scroll fields are untouched. -/
lemma updateView_free_stable (s : ViewState) (px py : ℚ)
    (hImg : imgValid s = true) (hMode : s.viewMode = ViewMode.free)
    (hzoom : newZoom s = s.zoom)
    (hvw : rawWidthOf s * s.zoom = s.viewWidth)
    (hvh : rawHeightOf s * s.zoom = s.viewHeight) :
    ((1 < s.viewWidth → s.screenWidth - s.viewWidth < 0 →
        (updateView s true px py).x0 =
          min 0 (max (min 0 (s.screenWidth - s.viewWidth)) s.x0)) ∧
      (0 ≤ s.screenWidth - s.viewWidth →
        (updateView s true px py).x0 = (s.screenWidth - s.viewWidth) / 2) ∧
      (updateView s true px py).minX0 = min 0 (s.screenWidth - s.viewWidth)) ∧
    ((1 < s.viewHeight → s.screenHeight - s.viewHeight < 0 →
        (updateView s true px py).y0 =
          min 0 (max (min 0 (s.screenHeight - s.viewHeight)) s.y0)) ∧
      (0 ≤ s.screenHeight - s.viewHeight →
        (updateView s true px py).y0 = (s.screenHeight - s.viewHeight) / 2) ∧
      (updateView s true px py).minY0 = min 0 (s.screenHeight - s.viewHeight)) ∧
    (updateView s true px py).scrollX = s.scrollX ∧
    (updateView s true px py).scrollY = s.scrollY := by
  rw [updateView_of_valid s true px py hImg]
  have hmode : effectiveViewMode s = ViewMode.free := by
    unfold effectiveViewMode
    rw [hMode]
    simp
  have haf : effAutofit s = false := by
    unfold effAutofit
    rw [hmode]
    rfl
  have hnvw : newViewWidth s = s.viewWidth := by
    unfold newViewWidth; rw [hzoom, hvw]
  have hnvh : newViewHeight s = s.viewHeight := by
    unfold newViewHeight; rw [hzoom, hvh]
  refine ⟨⟨?_, ?_, ?_⟩, ⟨?_, ?_, ?_⟩, rfl, rfl⟩
  · intro hvw1 hnx
    have hvwne : s.viewWidth ≠ 0 := ne_of_gt (by linarith)
    have hux : unclampedX s true px = s.x0 := by
      unfold unclampedX pivotRel
      rw [if_pos rfl, if_pos hvw1, hnvw]
      field_simp
    have hcondx : ¬(false = true ∨ 0 ≤ min 0 (s.screenWidth - s.viewWidth)) := by
      rintro (h | h)
      · exact Bool.false_ne_true h
      · have := min_le_right (0 : ℚ) (s.screenWidth - s.viewWidth)
        linarith
    rw [updateViewCore_x0, haf, hux, hnvw]
    unfold constrainPos
    simp only
    rw [if_neg hcondx]
  · intro hge
    have hcond : (false = true ∨ 0 ≤ min 0 (s.screenWidth - s.viewWidth)) := by
      right
      rw [min_eq_left hge]
    rw [updateViewCore_x0, haf, hnvw]
    unfold constrainPos
    simp only
    rw [if_pos hcond]
  · rw [updateViewCore_minX0, hnvw]
    rfl
  · intro hvh1 hny
    have hvhne : s.viewHeight ≠ 0 := ne_of_gt (by linarith)
    have huy : unclampedY s true py = s.y0 := by
      unfold unclampedY pivotRel
      rw [if_pos rfl, if_pos hvh1, hnvh]
      field_simp
    have hcondy : ¬(false = true ∨ 0 ≤ min 0 (s.screenHeight - s.viewHeight)) := by
      rintro (h | h)
      · exact Bool.false_ne_true h
      · have := min_le_right (0 : ℚ) (s.screenHeight - s.viewHeight)
        linarith
    rw [updateViewCore_y0, haf, huy, hnvh]
    unfold constrainPos
    simp only
    rw [if_neg hcondy]
  · intro hge
    have hcond : (false = true ∨ 0 ≤ min 0 (s.screenHeight - s.viewHeight)) := by
      right
      rw [min_eq_left hge]
    rw [updateViewCore_y0, haf, hnvh]
    unfold constrainPos
    simp only
    rw [if_pos hcond]
  · rw [updateViewCore_minY0, hnvh]
    rfl

/-- Arithmetic of the per-axis clamp min(0, max(m, p)) when m < 0. -/
lemma clamp_cases (m p : ℚ) (hm : m < 0) :
    (p < m → min 0 (max m p) = m) ∧
    (0 < p → min 0 (max m p) = 0) ∧
    (m ≤ p ∧ p ≤ 0 → min 0 (max m p) = p) ∧
    m ≤ min 0 (max m p) ∧ min 0 (max m p) ≤ 0 := by
  refine ⟨?_, ?_, ?_, le_min (le_of_lt hm) (le_max_left _ _), min_le_left _ _⟩
  · intro h
    rw [max_eq_left (le_of_lt h), min_eq_right (le_of_lt hm)]
  · intro h
    rw [max_eq_right (le_of_lt (lt_trans hm h)), min_eq_left (le_of_lt h)]
  · intro h
    rw [max_eq_right h.1, min_eq_right h.2]

/-- C7 amended: a frame of auto-scrolling from a settled free-mode state keeps
the origin within [minOrigin, 0] on every axis whose content exceeds the
viewport (minOrigin < 0, per axis): the origin moves by
-scrollDir * scrollSpeed; such an axis that would pass an end of its range has
its direction cleared and its origin lands exactly on that end; such an axis
staying inside keeps its direction and position.  On an axis whose content
fits the viewport (minOrigin >= 0) the origin is centered instead, which can
lie outside [minOrigin, 0] (see the counterexample). -/
theorem scrollFrame_stops_at_edges (s : ViewState)
    (hImg : imgValid s = true) (hMode : s.viewMode = ViewMode.free)
    (hScroll : isScrolling s = true)
    (hzoom : newZoom s = s.zoom)
    (hvw : rawWidthOf s * s.zoom = s.viewWidth)
    (hvh : rawHeightOf s * s.zoom = s.viewHeight)
    (hmx : s.minX0 = min 0 (s.screenWidth - s.viewWidth))
    (hmy : s.minY0 = min 0 (s.screenHeight - s.viewHeight))
    (hsw1 : 1 ≤ s.screenWidth) (hsh1 : 1 ≤ s.screenHeight) :
    ((scrollFrame s).minX0 = s.minX0 ∧ (scrollFrame s).minY0 = s.minY0) ∧
    (s.minX0 < 0 →
      (s.x0 - s.scrollX * s.scrollSpeed < s.minX0 →
        (scrollFrame s).x0 = s.minX0 ∧ (scrollFrame s).scrollX = 0) ∧
      (0 < s.x0 - s.scrollX * s.scrollSpeed →
        (scrollFrame s).x0 = 0 ∧ (scrollFrame s).scrollX = 0) ∧
      (s.minX0 ≤ s.x0 - s.scrollX * s.scrollSpeed ∧ s.x0 - s.scrollX * s.scrollSpeed ≤ 0 →
        (scrollFrame s).x0 = s.x0 - s.scrollX * s.scrollSpeed ∧
          (scrollFrame s).scrollX = s.scrollX) ∧
      s.minX0 ≤ (scrollFrame s).x0 ∧ (scrollFrame s).x0 ≤ 0) ∧
    (0 ≤ s.minX0 → (scrollFrame s).x0 = (s.screenWidth - s.viewWidth) / 2) ∧
    (s.minY0 < 0 →
      (s.y0 - s.scrollY * s.scrollSpeed < s.minY0 →
        (scrollFrame s).y0 = s.minY0 ∧ (scrollFrame s).scrollY = 0) ∧
      (0 < s.y0 - s.scrollY * s.scrollSpeed →
        (scrollFrame s).y0 = 0 ∧ (scrollFrame s).scrollY = 0) ∧
      (s.minY0 ≤ s.y0 - s.scrollY * s.scrollSpeed ∧ s.y0 - s.scrollY * s.scrollSpeed ≤ 0 →
        (scrollFrame s).y0 = s.y0 - s.scrollY * s.scrollSpeed ∧
          (scrollFrame s).scrollY = s.scrollY) ∧
      s.minY0 ≤ (scrollFrame s).y0 ∧ (scrollFrame s).y0 ≤ 0) ∧
    (0 ≤ s.minY0 → (scrollFrame s).y0 = (s.screenHeight - s.viewHeight) / 2) := by
  have hred : scrollFrame s = updateView
      { s with x0 := s.x0 - s.scrollX * s.scrollSpeed,
               y0 := s.y0 - s.scrollY * s.scrollSpeed,
               scrollX := if 0 < s.x0 - s.scrollX * s.scrollSpeed ∨
                   s.x0 - s.scrollX * s.scrollSpeed < s.minX0 then 0 else s.scrollX,
               scrollY := if 0 < s.y0 - s.scrollY * s.scrollSpeed ∨
                   s.y0 - s.scrollY * s.scrollSpeed < s.minY0 then 0 else s.scrollY }
      true (s.screenWidth / 2) (s.screenHeight / 2) := by
    unfold scrollFrame
    rw [if_pos hScroll]
  obtain ⟨⟨excx, cenx, emx⟩, ⟨excy, ceny, emy⟩, esx, esy⟩ := updateView_free_stable
    { s with x0 := s.x0 - s.scrollX * s.scrollSpeed,
             y0 := s.y0 - s.scrollY * s.scrollSpeed,
             scrollX := if 0 < s.x0 - s.scrollX * s.scrollSpeed ∨
                 s.x0 - s.scrollX * s.scrollSpeed < s.minX0 then 0 else s.scrollX,
             scrollY := if 0 < s.y0 - s.scrollY * s.scrollSpeed ∨
                 s.y0 - s.scrollY * s.scrollSpeed < s.minY0 then 0 else s.scrollY }
    (s.screenWidth / 2) (s.screenHeight / 2) hImg hMode hzoom hvw hvh
  rw [hred]
  dsimp only at excx cenx emx excy ceny emy esx esy
  rw [← hmx] at emx
  rw [← hmy] at emy
  refine ⟨⟨emx, emy⟩, ?_, ?_, ?_, ?_⟩
  · intro hx0neg
    have hnx : s.screenWidth - s.viewWidth < 0 := by
      by_contra hcon
      push_neg at hcon
      rw [hmx, min_eq_left hcon] at hx0neg
      exact absurd hx0neg (lt_irrefl 0)
    have hvw1 : 1 < s.viewWidth := by linarith
    have ex := excx hvw1 hnx
    rw [← hmx] at ex
    obtain ⟨hcx1, hcx2, hcx3, hcx4, hcx5⟩ :=
      clamp_cases s.minX0 (s.x0 - s.scrollX * s.scrollSpeed) hx0neg
    refine ⟨?_, ?_, ?_, ?_⟩
    · intro h
      exact ⟨by rw [ex, hcx1 h], by rw [esx, if_pos (Or.inr h)]⟩
    · intro h
      exact ⟨by rw [ex, hcx2 h], by rw [esx, if_pos (Or.inl h)]⟩
    · intro h
      have hni : ¬(0 < s.x0 - s.scrollX * s.scrollSpeed ∨
          s.x0 - s.scrollX * s.scrollSpeed < s.minX0) := by
        rintro (hc | hc)
        · linarith [h.2]
        · linarith [h.1]
      exact ⟨by rw [ex, hcx3 h], by rw [esx, if_neg hni]⟩
    · rw [ex]
      exact ⟨hcx4, hcx5⟩
  · intro hx0ge
    have hge : 0 ≤ s.screenWidth - s.viewWidth := by
      have hmr := min_le_right (0 : ℚ) (s.screenWidth - s.viewWidth)
      rw [hmx] at hx0ge
      linarith
    exact cenx hge
  · intro hy0neg
    have hny : s.screenHeight - s.viewHeight < 0 := by
      by_contra hcon
      push_neg at hcon
      rw [hmy, min_eq_left hcon] at hy0neg
      exact absurd hy0neg (lt_irrefl 0)
    have hvh1 : 1 < s.viewHeight := by linarith
    have ey := excy hvh1 hny
    rw [← hmy] at ey
    obtain ⟨hcy1, hcy2, hcy3, hcy4, hcy5⟩ :=
      clamp_cases s.minY0 (s.y0 - s.scrollY * s.scrollSpeed) hy0neg
    refine ⟨?_, ?_, ?_, ?_⟩
    · intro h
      exact ⟨by rw [ey, hcy1 h], by rw [esy, if_pos (Or.inr h)]⟩
    · intro h
      exact ⟨by rw [ey, hcy2 h], by rw [esy, if_pos (Or.inl h)]⟩
    · intro h
      have hni : ¬(0 < s.y0 - s.scrollY * s.scrollSpeed ∨
          s.y0 - s.scrollY * s.scrollSpeed < s.minY0) := by
        rintro (hc | hc)
        · linarith [h.2]
        · linarith [h.1]
      exact ⟨by rw [ey, hcy3 h], by rw [esy, if_neg hni]⟩
    · rw [ey]
      exact ⟨hcy4, hcy5⟩
  · intro hy0ge
    have hge : 0 ≤ s.screenHeight - s.viewHeight := by
      have hmr := min_le_right (0 : ℚ) (s.screenHeight - s.viewHeight)
      rw [hmy] at hy0ge
      linarith
    exact ceny hge

/-- A 40x1 panorama-like image with square pixels in an 8x6 viewport at zoom
1: the horizontal axis exceeds the viewport (minX0 = -32) while the vertical
content fits (minY0 = 0, origin centered at 5/2), scrolling right. -/
def panoramaState : ViewState :=
  { baseState with imgWidth := 40, imgHeight := 1,
                   screenWidth := 8, screenHeight := 6, x0 := -2, y0 := 5/2,
                   viewWidth := 40, viewHeight := 1, minX0 := -32, minY0 := 0,
                   minZoom := 1/5, scrollX := 1 }

/-- C7 witness at the 4000x1 panorama state, where the horizontal axis exceeds
the viewport and the vertical axis fits. -/
theorem scrollFrame_stops_at_edges_witness :
    (isScrolling panoramaState = true ∧ panoramaState.minX0 < 0 ∧
      0 ≤ panoramaState.minY0) ∧
    ((scrollFrame panoramaState).minX0 = panoramaState.minX0 ∧
      (scrollFrame panoramaState).minY0 = panoramaState.minY0) :=
  ⟨by with_unfolding_all decide,
   (scrollFrame_stops_at_edges panoramaState (by with_unfolding_all decide)
     (by with_unfolding_all decide) (by with_unfolding_all decide)
     (by with_unfolding_all decide) (by with_unfolding_all decide)
     (by with_unfolding_all decide) (by with_unfolding_all decide)
     (by with_unfolding_all decide) (by with_unfolding_all decide)
     (by with_unfolding_all decide)).1⟩

/-
  C8.  Direction auto-detection of startScroll.
-/

/-- Characterization of the auto-detection fold on a non-scrolling start: the
result is one of the four unit directions or no direction; a chosen direction
is eligible (its axis has minOrigin < 0), has positive remaining distance,
strictly beats every eligible direction tested before it and is not beaten by
any eligible direction tested after it (testing order: down (0,1), right
(1,0), up (0,-1), left (-1,0)); no direction is chosen only when every
eligible distance is nonpositive. -/
lemma autoPickFrom_spec (x0 y0 mx my : ℚ) :
    (autoPickFrom 0 0 x0 y0 mx my = ((0 : ℚ), (1 : ℚ)) ∨
      autoPickFrom 0 0 x0 y0 mx my = ((1 : ℚ), (0 : ℚ)) ∨
      autoPickFrom 0 0 x0 y0 mx my = ((0 : ℚ), (-1 : ℚ)) ∨
      autoPickFrom 0 0 x0 y0 mx my = ((-1 : ℚ), (0 : ℚ)) ∨
      autoPickFrom 0 0 x0 y0 mx my = ((0 : ℚ), (0 : ℚ))) ∧
    (autoPickFrom 0 0 x0 y0 mx my = ((0 : ℚ), (1 : ℚ)) →
      my < 0 ∧ 0 < y0 - my ∧ (mx < 0 → x0 - mx ≤ y0 - my) ∧
        (my < 0 → -y0 ≤ y0 - my) ∧ (mx < 0 → -x0 ≤ y0 - my)) ∧
    (autoPickFrom 0 0 x0 y0 mx my = ((1 : ℚ), (0 : ℚ)) →
      mx < 0 ∧ 0 < x0 - mx ∧ (my < 0 → y0 - my < x0 - mx) ∧
        (my < 0 → -y0 ≤ x0 - mx) ∧ (mx < 0 → -x0 ≤ x0 - mx)) ∧
    (autoPickFrom 0 0 x0 y0 mx my = ((0 : ℚ), (-1 : ℚ)) →
      my < 0 ∧ 0 < -y0 ∧ (my < 0 → y0 - my < -y0) ∧
        (mx < 0 → x0 - mx < -y0) ∧ (mx < 0 → -x0 ≤ -y0)) ∧
    (autoPickFrom 0 0 x0 y0 mx my = ((-1 : ℚ), (0 : ℚ)) →
      mx < 0 ∧ 0 < -x0 ∧ (my < 0 → y0 - my < -x0) ∧
        (mx < 0 → x0 - mx < -x0) ∧ (my < 0 → -y0 < -x0)) ∧
    (autoPickFrom 0 0 x0 y0 mx my = ((0 : ℚ), (0 : ℚ)) →
      (my < 0 → y0 - my ≤ 0) ∧ (mx < 0 → x0 - mx ≤ 0) ∧
        (my < 0 → -y0 ≤ 0) ∧ (mx < 0 → -x0 ≤ 0)) := by
  unfold autoPickFrom
  dsimp only
  split_ifs <;> dsimp only at * <;>
    refine ⟨by norm_num, ?_, ?_, ?_, ?_, ?_⟩ <;>
    intro hp <;>
    first
      | exact ⟨by linarith, by linarith, fun hh => by linarith, fun hh => by linarith,
          fun hh => by linarith⟩
      | exact ⟨fun hh => by linarith, fun hh => by linarith, fun hh => by linarith,
          fun hh => by linarith⟩
      | norm_num [Prod.ext_iff] at hp

/-- startScroll with no explicit direction, not scrolling and not in panel
mode reduces to the auto-detection fold. -/
lemma startScroll_auto (s : ViewState) (speed : ℚ)
    (hMode : s.viewMode ≠ ViewMode.panel) (hx : s.scrollX = 0) (hy : s.scrollY = 0) :
    ((startScroll s speed 0 0).scrollX, (startScroll s speed 0 0).scrollY) =
      autoPickFrom 0 0 s.x0 s.y0 s.minX0 s.minY0 := by
  have hns : isScrolling s = false := by
    unfold isScrolling
    rw [hx, hy]
    simp
  have hnd : ¬((0:ℚ) ≠ 0 ∨ (0:ℚ) ≠ 0) := by simp
  unfold startScroll
  dsimp only
  by_cases hsp : speed ≠ 0
  · rw [if_pos hsp]
    dsimp only
    have hni : ¬(isScrolling { s with scrollSpeed := speed } = true) := by
      simp [show isScrolling { s with scrollSpeed := speed } = false from hns]
    rw [if_neg hMode, if_neg hnd, if_neg hni]
    dsimp only
    rw [hx, hy]
  · rw [if_neg hsp]
    have hni : ¬(isScrolling s = true) := by simp [hns]
    rw [if_neg hMode, if_neg hnd, if_neg hni]
    dsimp only
    rw [hx, hy]

/-- C8: when a scroll is requested with no explicit direction while not
already scrolling and not in Panel mode, direction auto-detection tests the
four cardinal directions in the fixed order down, right, up, left, excludes
any axis with minOrigin >= 0, and selects the direction with the strictly
greatest remaining scrollable distance (ties in favor of the earlier
direction; none when every eligible distance is nonpositive). -/
theorem startScroll_autodetect_longest (s : ViewState) (speed : ℚ)
    (hMode : s.viewMode ≠ ViewMode.panel) (hx : s.scrollX = 0) (hy : s.scrollY = 0) :
    (((startScroll s speed 0 0).scrollX, (startScroll s speed 0 0).scrollY) = ((0 : ℚ), (1 : ℚ)) ∨
      ((startScroll s speed 0 0).scrollX, (startScroll s speed 0 0).scrollY) = ((1 : ℚ), (0 : ℚ)) ∨
      ((startScroll s speed 0 0).scrollX, (startScroll s speed 0 0).scrollY) = ((0 : ℚ), (-1 : ℚ)) ∨
      ((startScroll s speed 0 0).scrollX, (startScroll s speed 0 0).scrollY) = ((-1 : ℚ), (0 : ℚ)) ∨
      ((startScroll s speed 0 0).scrollX, (startScroll s speed 0 0).scrollY) = ((0 : ℚ), (0 : ℚ))) ∧
    (((startScroll s speed 0 0).scrollX, (startScroll s speed 0 0).scrollY) = ((0 : ℚ), (1 : ℚ)) →
      s.minY0 < 0 ∧ 0 < s.y0 - s.minY0 ∧ (s.minX0 < 0 → s.x0 - s.minX0 ≤ s.y0 - s.minY0) ∧
        (s.minY0 < 0 → -s.y0 ≤ s.y0 - s.minY0) ∧ (s.minX0 < 0 → -s.x0 ≤ s.y0 - s.minY0)) ∧
    (((startScroll s speed 0 0).scrollX, (startScroll s speed 0 0).scrollY) = ((1 : ℚ), (0 : ℚ)) →
      s.minX0 < 0 ∧ 0 < s.x0 - s.minX0 ∧ (s.minY0 < 0 → s.y0 - s.minY0 < s.x0 - s.minX0) ∧
        (s.minY0 < 0 → -s.y0 ≤ s.x0 - s.minX0) ∧ (s.minX0 < 0 → -s.x0 ≤ s.x0 - s.minX0)) ∧
    (((startScroll s speed 0 0).scrollX, (startScroll s speed 0 0).scrollY) = ((0 : ℚ), (-1 : ℚ)) →
      s.minY0 < 0 ∧ 0 < -s.y0 ∧ (s.minY0 < 0 → s.y0 - s.minY0 < -s.y0) ∧
        (s.minX0 < 0 → s.x0 - s.minX0 < -s.y0) ∧ (s.minX0 < 0 → -s.x0 ≤ -s.y0)) ∧
    (((startScroll s speed 0 0).scrollX, (startScroll s speed 0 0).scrollY) = ((-1 : ℚ), (0 : ℚ)) →
      s.minX0 < 0 ∧ 0 < -s.x0 ∧ (s.minY0 < 0 → s.y0 - s.minY0 < -s.x0) ∧
        (s.minX0 < 0 → s.x0 - s.minX0 < -s.x0) ∧ (s.minY0 < 0 → -s.y0 < -s.x0)) ∧
    (((startScroll s speed 0 0).scrollX, (startScroll s speed 0 0).scrollY) = ((0 : ℚ), (0 : ℚ)) →
      (s.minY0 < 0 → s.y0 - s.minY0 ≤ 0) ∧ (s.minX0 < 0 → s.x0 - s.minX0 ≤ 0) ∧
        (s.minY0 < 0 → -s.y0 ≤ 0) ∧ (s.minX0 < 0 → -s.x0 ≤ 0)) := by
  rw [startScroll_auto s speed hMode hx hy]
  exact autoPickFrom_spec s.x0 s.y0 s.minX0 s.minY0

def scrollPickState : ViewState :=
  { baseState with imgWidth := 200, imgHeight := 200,
                   screenWidth := 100, screenHeight := 100, x0 := -30, y0 := -10,
                   viewWidth := 200, viewHeight := 200, minX0 := -100, minY0 := -100,
                   minZoom := 1/2 }

theorem startScroll_autodetect_longest_witness :
    (scrollPickState.viewMode ≠ ViewMode.panel ∧ scrollPickState.scrollX = 0) ∧
    (((startScroll scrollPickState 4 0 0).scrollX,
        (startScroll scrollPickState 4 0 0).scrollY) = ((0 : ℚ), (1 : ℚ)) →
      scrollPickState.minY0 < 0 ∧ 0 < scrollPickState.y0 - scrollPickState.minY0 ∧
        (scrollPickState.minX0 < 0 →
          scrollPickState.x0 - scrollPickState.minX0 ≤
            scrollPickState.y0 - scrollPickState.minY0) ∧
        (scrollPickState.minY0 < 0 →
          -scrollPickState.y0 ≤ scrollPickState.y0 - scrollPickState.minY0) ∧
        (scrollPickState.minX0 < 0 →
          -scrollPickState.x0 ≤ scrollPickState.y0 - scrollPickState.minY0)) :=
  ⟨by with_unfolding_all decide,
   (startScroll_autodetect_longest scrollPickState 4 (by with_unfolding_all decide)
     (by with_unfolding_all decide) (by with_unfolding_all decide)).2.1⟩


/-
  C9 and C10.  The zoom stepper.
-/

/-- C9: the zoom step computation of changeZoom agrees with the specification's
description on every input: a no-op below the 0.01 noise threshold; otherwise
the zoom is mapped to a step index (integer mode: zoom - 1 for zoom >= 1,
1 - 1/zoom for zoom < 1; otherwise log zoom / log of the sqrt-2 step base), the
index is snapped to the nearest step and advanced by one in the requested
direction when its fractional distance to the nearest step is below 0.125 and
floored and advanced otherwise, and the inverse mapping is applied. -/
theorem changeZoomStep_matches_spec (isInt : Bool) (zoom direction : ℝ) :
    changeZoomStep isInt zoom direction = changeZoomSpec isInt zoom direction := by
  unfold changeZoomStep changeZoomSpec
  by_cases hd : |direction| < 1/100
  · rw [if_pos hd, if_pos hd]
  · rw [if_neg hd, if_neg hd]
    dsimp only
    have hdir : (if direction < 0 then (-1 : ℝ) else 1) =
        (if 0 ≤ direction then (1 : ℝ) else -1) := by
      by_cases h : direction < 0
      · rw [if_pos h, if_neg (not_le.mpr h)]
      · rw [if_neg h, if_pos (le_of_not_lt h)]
    rw [hdir]
    simp only [round_eq]

/-- C10: the zoom step computation preserves strict positivity of the zoom:
for every positive starting zoom and every direction past the 0.01 noise
threshold, the new zoom is positive in both the integer step scale and the
sqrt-2 geometric scale. -/
theorem changeZoomStep_pos (isInt : Bool) (zoom direction : ℝ)
    (hz : 0 < zoom) (hd : 1/100 ≤ |direction|) :
    0 < changeZoomStep isInt zoom direction := by
  unfold changeZoomStep
  rw [if_neg (not_lt.mpr hd)]
  dsimp only
  split_ifs <;>
    first
      | linarith
      | (apply one_div_pos.mpr; linarith)
      | (apply Real.rpow_pos_of_pos; norm_num [zoomStepSize])

/-- C10 witness at zoom 2, direction 1, geometric scale. -/
theorem changeZoomStep_pos_witness :
    (0 < (2 : ℝ) ∧ (1/100 : ℝ) ≤ |(1 : ℝ)|) ∧ 0 < changeZoomStep false 2 1 :=
  ⟨⟨by norm_num, by norm_num⟩, changeZoomStep_pos false 2 1 (by norm_num) (by norm_num)⟩

/-
  Fuel adequacy of the panel-count probe.
-/

lemma panelProbe_zero (rM rm dM dm : ℚ) (k : ℕ) :
    panelProbe rM rm dM dm 0 k = k := rfl

lemma panelProbe_succ (rM rm dM dm : ℚ) (n k : ℕ) :
    panelProbe rM rm dM dm (n + 1) k =
      if panelProbeCond rM rm dM dm k then panelProbe rM rm dM dm n (k + 1) else k := rfl

lemma panelProbe_exit_prop (rM rm dM dm : ℚ) :
    ∀ fuel k, (∃ j, k ≤ j ∧ j ≤ k + fuel ∧ panelProbeCond rM rm dM dm j = false) →
      panelProbeCond rM rm dM dm (panelProbe rM rm dM dm fuel k) = false := by
  intro fuel
  induction fuel with
  | zero =>
    rintro k ⟨j, h1, h2, h3⟩
    have hjk : j = k := by omega
    rw [hjk] at h3
    rw [panelProbe_zero]
    exact h3
  | succ n ih =>
    rintro k ⟨j, h1, h2, h3⟩
    rw [panelProbe_succ]
    by_cases hck : panelProbeCond rM rm dM dm k = true
    · rw [if_pos hck]
      apply ih
      have hjne : j ≠ k := by
        intro he
        rw [he, hck] at h3
        simp at h3
      exact ⟨j, by omega, by omega, h3⟩
    · rw [if_neg hck]
      cases h : panelProbeCond rM rm dM dm k
      · rfl
      · exact absurd h hck

/-- The fuel chosen in panelFuel always suffices: with positive sizes, the
value returned by the probing loop fails the loop condition, exactly as the
exit value of the C loop does. -/
lemma panelProbe_exits (rM rm dM dm : ℚ)
    (hrM : 0 < rM) (hrm : 0 < rm) (hdM : 0 < dM) (hdm : 0 < dm) :
    panelProbeCond rM rm dM dm
      (panelProbe rM rm dM dm (panelFuel rM rm dM dm) 1) = false := by
  have hQpos : 0 < (dm * rM) / (dM * rm) := div_pos (mul_pos hdm hrM) (mul_pos hdM hrm)
  have hcond : ∀ k : ℕ, panelProbeCond rM rm dM dm k = true →
      ((k : ℚ)) ^ 2 < (dm * rM) / (dM * rm) := by
    intro k hk
    unfold panelProbeCond at hk
    rw [decide_eq_true_eq] at hk
    rw [lt_div_iff (mul_pos hdM hrm)]
    have h1 : (dM * (k : ℚ) * rm / rM) * (k : ℚ) * rM < dm * rM :=
      mul_lt_mul_of_pos_right hk hrM
    have h2 : (dM * (k : ℚ) * rm / rM) * (k : ℚ) * rM = (k : ℚ) ^ 2 * (dM * rm) := by
      field_simp
      ring
    rw [← h2]
    exact h1
  have hceil : (dm * rM) / (dM * rm) ≤ ((⌈(dm * rM) / (dM * rm)⌉ : ℤ) : ℚ) := Int.le_ceil _
  have hceilpos : 0 < ⌈(dm * rM) / (dM * rm)⌉ := Int.ceil_pos.mpr hQpos
  have hna : ((⌈(dm * rM) / (dM * rm)⌉.natAbs : ℕ) : ℚ) =
      ((⌈(dm * rM) / (dM * rm)⌉ : ℤ) : ℚ) := by
    rw [Int.cast_natAbs]
    exact_mod_cast abs_of_nonneg (le_of_lt hceilpos)
  have hBfalse : panelProbeCond rM rm dM dm
      ((⌈(dm * rM) / (dM * rm)⌉.natAbs) + 1) = false := by
    cases h : panelProbeCond rM rm dM dm ((⌈(dm * rM) / (dM * rm)⌉.natAbs) + 1)
    · rfl
    · exfalso
      have hsq := hcond _ h
      push_cast at hsq
      have hN0 : (0 : ℚ) ≤ ((⌈(dm * rM) / (dM * rm)⌉.natAbs : ℕ) : ℚ) := Nat.cast_nonneg _
      nlinarith [hsq, hceil, hna, hN0]
  apply panelProbe_exit_prop
  refine ⟨(⌈(dm * rM) / (dM * rm)⌉.natAbs) + 1, by omega, ?_, hBfalse⟩
  unfold panelFuel
  omega


end PixelView
